import Mathlib

/-!
Shallow embedding of the Dockerfile-generation pipeline (src/index.ts, with the
src/index.js variant noted where it differs).  The program is sequential I/O
orchestration: fetch repository metadata + README, list top-level files and
fetch each file's body, build a prompt, call a completion endpoint, write the
returned artifact to disk.  External I/O is modelled by an `Env` record of
pre-determined request outcomes; the filesystem is a map from paths to
optional contents.
-/

namespace HackathonDockerfile

/-- A JSON value, as delivered by an HTTP response body (`response.data`). -/
inductive Json where
  | str : String → Json
  | num : Int → Json
  | bool : Bool → Json
  | null : Json
  | arr : List Json → Json
  | obj : List (String × Json) → Json

/-- JavaScript string join with a separator (`Array.prototype.join`). -/
def joinSep (sep : String) : List String → String
  | [] => ""
  | [x] => x
  | x :: y :: xs => x ++ sep ++ joinSep sep (y :: xs)

mutual

/-- Model of `JSON.stringify` on the `Json` type (string escaping elided:
only the fact that the result is a `String` matters to the program). -/
def jsonStringify : Json → String
  | .str s => "\"" ++ s ++ "\""
  | .num n => toString n
  | .bool b => if b then "true" else "false"
  | .null => "null"
  | .arr xs => "[" ++ jsonStringifyArr xs ++ "]"
  | .obj kvs => "\x7b" ++ jsonStringifyObj kvs ++ "\x7d"

/-- Comma-joined stringification of an array's elements. -/
def jsonStringifyArr : List Json → String
  | [] => ""
  | [x] => jsonStringify x
  | x :: y :: xs => jsonStringify x ++ "," ++ jsonStringifyArr (y :: xs)

/-- Comma-joined stringification of an object's key/value pairs. -/
def jsonStringifyObj : List (String × Json) → String
  | [] => ""
  | [(k, v)] => "\"" ++ k ++ "\":" ++ jsonStringify v
  | (k, v) :: y :: xs => "\"" ++ k ++ "\":" ++ jsonStringify v ++ "," ++ jsonStringifyObj (y :: xs)

end

/-- A JavaScript string-or-absent value: a present string, `null`, or
`undefined`.  Needed because the GitHub API returns `null` descriptions and
the js variant reads an absent `readme` property. -/
inductive JsVal where
  | str : String → JsVal
  | nullv : JsVal
  | undef : JsVal
deriving Repr, DecidableEq

/-- How a JavaScript template literal renders a string-or-absent value. -/
def jsDisplay : JsVal → String
  | .str s => s
  | .nullv => "null"
  | .undef => "undefined"

/-- An HTTP request failure (axios rejection): a non-2xx status or a
transport-level error. -/
inductive HttpError where
  | status : Nat → HttpError
  | network : HttpError
deriving Repr, DecidableEq

/-- The error taxonomy: every stage wraps its failure in its category with a
fixed message (`throw new Error(...)` at each call site). -/
inductive AppError where
  | configError : String → AppError
  | fetchError : String → AppError
  | generationError : String → AppError
  | ioError : String → AppError
deriving Repr, DecidableEq

/-- The fields of the repository-metadata response body that the program
reads (`repoData.name`, `repoData.description`, `repoData.html_url`). -/
structure RepoMeta where
  name : String
  description : JsVal
  html_url : String
deriving Repr, DecidableEq

/-- `interface RepoDetails` (src/index.ts lines 23-28).  `description` is
declared `string` but receives the API's possibly-`null` value unchecked, and
the js variant leaves `readme` absent, hence `JsVal`. -/
structure RepoDetails where
  name : String
  description : JsVal
  url : String
  readme : JsVal
deriving Repr, DecidableEq

/-- The `_links` sub-object of a directory-listing entry. -/
structure RepoLinks where
  self : String
  git : String
  html : String
deriving Repr, DecidableEq

/-- `interface RepoFile` (src/index.ts lines 30-45): one top-level entry of
the `/contents` directory listing. -/
structure RepoFile where
  name : String
  path : String
  sha : String
  size : Nat
  url : String
  html_url : String
  git_url : String
  download_url : String
  type : String
  links : RepoLinks
deriving Repr, DecidableEq

/-- The `{name, content}` record produced per fetched file (the spec's
`RepositoryFile`). -/
structure RepositoryFile where
  name : String
  content : String
deriving Repr, DecidableEq

/-- `Promise.all` on two already-settled promises: both must resolve; if
either rejects the combined promise rejects. -/
def promiseAll2 {e a b : Type} : Except e a → Except e b → Except e (a × b)
  | .error err, _ => .error err
  | .ok _, .error err => .error err
  | .ok x, .ok y => .ok (x, y)

/-- `Promise.all` on a list of already-settled promises: resolves with the
list of values in order, or rejects if any member rejects. -/
def promiseAllList {e a : Type} : List (Except e a) → Except e (List a)
  | [] => .ok []
  | x :: xs =>
    match x with
    | .error err => .error err
    | .ok v =>
      match promiseAllList xs with
      | .error err => .error err
      | .ok vs => .ok (v :: vs)

/-- `fetchRepoDetails` (src/index.ts lines 47-81): awaits the metadata
request and the README request via `Promise.all`; on success assembles
`RepoDetails` (the README body is always a string), on any failure the
`catch` throws the one `FetchError`. -/
def fetchRepoDetails (repoResp : Except HttpError RepoMeta)
    (readmeResp : Except HttpError String) : Except AppError RepoDetails :=
  match promiseAll2 repoResp readmeResp with
  | .error _ => .error (.fetchError "Failed to fetch repository details")
  | .ok (repoData, readmeData) =>
    .ok { name := repoData.name
          description := repoData.description
          url := repoData.html_url
          readme := .str readmeData }

/-- The program's normalization of a fetched file body
(src/index.ts line 105): a string body is kept verbatim, anything else is
`JSON.stringify`-ed.  There is no base64 decoding. -/
def normalizeContent : Json → String
  | .str s => s
  | j => jsonStringify j

/-- The async arrow function mapped over the listing entries
(src/index.ts lines 95-109): a `"file"`-typed entry fetches its
`download_url` and yields `{name, content}`; any other entry yields `null`
(here `none`) without issuing a request. -/
def fetchEntryContent (fileResp : String → Except HttpError Json)
    (file : RepoFile) : Except HttpError (Option RepositoryFile) :=
  if file.type = "file" then
    match fileResp file.download_url with
    | .error err => .error err
    | .ok body => .ok (some { name := file.name, content := normalizeContent body })
  else
    .ok none

/-- `listRepoFiles` (src/index.ts lines 83-116): fetches the top-level
directory listing, maps `fetchEntryContent` over it under `Promise.all`,
filters out the `null`s, and collapses every failure to the one
`FetchError` in the `catch`. -/
def listRepoFiles (listingResp : Except HttpError (List RepoFile))
    (fileResp : String → Except HttpError Json) :
    Except AppError (List RepositoryFile) :=
  match listingResp with
  | .error _ => .error (.fetchError "Failed to list repository files")
  | .ok files =>
    match promiseAllList (files.map (fetchEntryContent fileResp)) with
    | .error _ => .error (.fetchError "Failed to list repository files")
    | .ok fileContents => .ok (fileContents.filterMap id)

/-- JavaScript `s.substring(0, n)`: the first at most `n` characters of
`s` (character-counted; identical to the code-unit count on the strings the
program handles). -/
def jsSubstring0 (s : String) (n : Nat) : String := ⟨s.data.take n⟩

/-- The message object of a completion choice; `content` may be `null`. -/
structure ChatMessage where
  content : Option String
deriving Repr, DecidableEq

/-- One completion choice; `message` may be absent. -/
structure Choice where
  message : Option ChatMessage
deriving Repr, DecidableEq

/-- The completion response body: its `choices` array. -/
structure CompletionResponse where
  choices : List Choice
deriving Repr, DecidableEq

/-- The prompt template literal (src/index.ts lines 119-125), a pure
function of `repoDetails` and `files`: name, description and README are
interpolated, and each file contributes `name: ` plus the first 200
characters of its content, the files joined by newlines. -/
def buildPrompt (repoDetails : RepoDetails) (files : List RepositoryFile) : String :=
  "Create a Dockerfile for a project with the following details:\n    - Repository Name: "
    ++ repoDetails.name
    ++ "\n    - Description: " ++ jsDisplay repoDetails.description
    ++ "\n    - README Content: " ++ jsDisplay repoDetails.readme
    ++ "\n    - Files: "
    ++ joinSep "\n" (files.map (fun file => file.name ++ ": " ++ jsSubstring0 file.content 200))
    ++ "\n\n    Provide a complete and commented Dockerfile."

/-- Model of JavaScript `String.prototype.trim`: strip leading and trailing
whitespace. -/
def jsTrim (s : String) : String :=
  ⟨((s.data.dropWhile Char.isWhitespace).reverse.dropWhile Char.isWhitespace).reverse⟩

/-- The text of the first choice's message, the empty string when the
message or its content is absent (`choices[0].message.content` with
JavaScript's falsy collapse). -/
def firstChoiceText (response : CompletionResponse) : String :=
  match response.choices with
  | [] => ""
  | c :: _ => (c.message.bind ChatMessage.content).getD ""

/-- `generateDockerfile` (src/index.ts lines 118-152): builds the prompt,
submits it, and extracts `choices[0].message.content?.trim()`; a rejected
call, an empty `choices` array, an absent message, or text that is empty
after trimming all fall into the `catch`, which throws the one
`GenerationError`.  Returns the prompt alongside nothing: only the artifact
text is returned by the source function. -/
def generateDockerfile (completionResp : Except HttpError CompletionResponse)
    (repoDetails : RepoDetails) (files : List RepositoryFile) :
    Except AppError String :=
  let _prompt := buildPrompt repoDetails files
  match completionResp with
  | .error _ => .error (.generationError "Failed to generate Dockerfile")
  | .ok response =>
    match response.choices with
    | [] => .error (.generationError "Failed to generate Dockerfile")
    | c :: _ =>
      match c.message with
      | none => .error (.generationError "Failed to generate Dockerfile")
      | some m =>
        let dockerfile := jsTrim (m.content.getD "")
        if dockerfile = "" then .error (.generationError "Failed to generate Dockerfile")
        else .ok dockerfile

/-- The filesystem: a map from paths to the contents of existing files. -/
def FileSystem : Type := String → Option String

/-- The effect of a successful `fs.writeFile`: the destination now holds
exactly the written text; every other path is untouched. -/
def writeFs (filePath content : String) (fs : FileSystem) : FileSystem :=
  fun p => if p = filePath then some content else fs p

/-- `writeDockerfile` (src/index.ts lines 154-165): a single `fs.writeFile`
that overwrites the destination unconditionally, rejecting with the
filesystem error verbatim. -/
def writeDockerfile (writeResult : Except String Unit)
    (dockerfile filePath : String) (fs : FileSystem) :
    Except String FileSystem :=
  match writeResult with
  | .error err => .error err
  | .ok _ => .ok (writeFs filePath dockerfile fs)

/-- An observable external request or write performed by a run. -/
inductive Event where
  | metadataReq : Event
  | readmeReq : Event
  | listingReq : Event
  | fileReq : String → Event
  | completionReq : Event
  | fileWrite : String → Event
deriving Repr, DecidableEq

/-- The predetermined outcome of every external interaction of one run. -/
structure Env where
  repoResp : Except HttpError RepoMeta
  readmeResp : Except HttpError String
  listingResp : Except HttpError (List RepoFile)
  fileResp : String → Except HttpError Json
  completionResp : Except HttpError CompletionResponse
  writeResult : Except String Unit

/-- What a run left behind: the final filesystem, the requests and writes it
issued in order, and whether it ended in the `catch` of `main`. -/
structure RunResult where
  fs : FileSystem
  events : List Event
  failed : Bool

/-- The file-content requests the listing stage fans out: one per
`"file"`-typed entry, none when the listing request itself failed. -/
def listingEvents (listingResp : Except HttpError (List RepoFile)) : List Event :=
  match listingResp with
  | .error _ => []
  | .ok files => (files.filter (fun f => f.type = "file")).map (fun f => .fileReq f.download_url)

/-- `main` (src/index.ts lines 167-179): fetch details, list files, generate,
write — strictly in order, each stage's failure ending the run in the
`catch` with the filesystem untouched. -/
def mainRun (env : Env) (fs : FileSystem) : RunResult :=
  let ev1 : List Event := [.metadataReq, .readmeReq]
  match fetchRepoDetails env.repoResp env.readmeResp with
  | .error _ => ⟨fs, ev1, true⟩
  | .ok repoDetails =>
    let ev2 := ev1 ++ [.listingReq] ++ listingEvents env.listingResp
    match listRepoFiles env.listingResp env.fileResp with
    | .error _ => ⟨fs, ev2, true⟩
    | .ok files =>
      let ev3 := ev2 ++ [.completionReq]
      match generateDockerfile env.completionResp repoDetails files with
      | .error _ => ⟨fs, ev3, true⟩
      | .ok dockerfile =>
        let ev4 := ev3 ++ [.fileWrite "./Dockerfile"]
        match writeDockerfile env.writeResult dockerfile "./Dockerfile" fs with
        | .error _ => ⟨fs, ev4, true⟩
        | .ok fs2 => ⟨fs2, ev4, false⟩

/-- The environment variables the program reads at startup; an unset
variable is `none`. -/
structure RawConfig where
  openaiApiKey : Option String
  githubToken : Option String
deriving Repr, DecidableEq

/-- JavaScript truthiness of `process.env.X`: `undefined` and the empty
string are falsy. -/
def envTruthy : Option String → Bool
  | none => false
  | some s => !(s = "")

/-- The module-level credential checks (src/index.ts lines 8-17), run before
anything else: a missing (or falsy) key throws immediately. -/
def startupCheck (cfg : RawConfig) : Except AppError Unit :=
  if !(envTruthy cfg.openaiApiKey) then
    .error (.configError "Missing OpenAI API key in environment variables")
  else if !(envTruthy cfg.githubToken) then
    .error (.configError "Missing GitHub token in environment variables")
  else .ok ()

/-- The whole process: the startup credential checks, then `main`.  A
startup throw ends the process before any request or write. -/
def programRun (cfg : RawConfig) (env : Env) (fs : FileSystem) : RunResult :=
  match startupCheck cfg with
  | .error _ => ⟨fs, [], true⟩
  | .ok _ => mainRun env fs

/-- The standard base64 alphabet. -/
def base64Chars : List Char :=
  "ABCDEFGHIJKLMNOPQRSTUVWXYZabcdefghijklmnopqrstuvwxyz0123456789+/".data

/-- The base64 digit for a 6-bit value. -/
def b64Char (n : Nat) : Char := base64Chars.getD n 'A'

/-- Standard base64 encoding of a byte sequence (RFC 4648, with padding). -/
def base64EncodeBytes : List Nat → String
  | [] => ""
  | [b1] =>
    ⟨[b64Char (b1 / 4), b64Char (b1 % 4 * 16), '=', '=']⟩
  | [b1, b2] =>
    ⟨[b64Char (b1 / 4), b64Char (b1 % 4 * 16 + b2 / 16), b64Char (b2 % 16 * 4), '=']⟩
  | b1 :: b2 :: b3 :: rest =>
    (⟨[b64Char (b1 / 4), b64Char (b1 % 4 * 16 + b2 / 16),
       b64Char (b2 % 16 * 4 + b3 / 64), b64Char (b3 % 64)]⟩ : String)
      ++ base64EncodeBytes rest

/-- The bytes of an ASCII string (for ASCII text, the UTF-8 bytes are the
code points). -/
def asciiBytes (s : String) : List Nat := s.data.map Char.toNat

/-- Standard base64 encoding of an ASCII string. -/
def base64EncodeAscii (s : String) : String := base64EncodeBytes (asciiBytes s)

/-- `needle` occurs verbatim inside `hay`. -/
def occursIn (needle hay : String) : Prop :=
  ∃ pre post, hay = pre ++ needle ++ post

/-! ### Helper lemmas -/

theorem occursIn_of_append {needle hay : String} (a b : String)
    (h : occursIn needle hay) : occursIn needle (a ++ hay ++ b) := by
  obtain ⟨p, q, rfl⟩ := h
  exact ⟨a ++ p, q ++ b, by simp [String.append_assoc]⟩

theorem occursIn_joinSep {s : String} {l : List String} (sep : String)
    (h : s ∈ l) : occursIn s (joinSep sep l) := by
  induction l with
  | nil => cases h
  | cons x xs ih =>
    rcases List.mem_cons.mp h with rfl | hmem
    · cases xs with
      | nil => exact ⟨"", "", by simp [joinSep]⟩
      | cons y ys => exact ⟨"", sep ++ joinSep sep (y :: ys), by simp [joinSep, String.append_assoc]⟩
    · have hx := ih hmem
      obtain ⟨p, q, hpq⟩ := hx
      cases xs with
      | nil => cases hmem
      | cons y ys =>
        exact ⟨x ++ sep ++ p, q, by simp [joinSep, hpq, String.append_assoc]⟩

theorem promiseAllList_map_fetch (entries : List RepoFile)
    (fileResp : String → Except HttpError Json) (body : String → Json)
    (h : ∀ u, fileResp u = .ok (body u)) :
    promiseAllList (entries.map (fetchEntryContent fileResp)) =
      .ok (entries.map (fun e =>
        if e.type = "file" then
          some { name := e.name, content := normalizeContent (body e.download_url) }
        else none)) := by
  induction entries with
  | nil => rfl
  | cons e es ih =>
    by_cases he : e.type = "file"
    · simp [promiseAllList, fetchEntryContent, he, h, ih]
    · simp [promiseAllList, fetchEntryContent, he, ih]

theorem filterMap_id_map_ite {α β : Type} (p : α → Prop) [DecidablePred p]
    (g : α → β) (l : List α) :
    (l.map (fun e => if p e then some (g e) else none)).filterMap id =
      (l.filter (fun e => p e)).map g := by
  induction l with
  | nil => rfl
  | cons x xs ih =>
    by_cases hx : p x
    · simp [hx, ih]
    · simp [hx, ih]

theorem mem_of_promiseAllList_ok {e a : Type} {l : List (Except e a)} {vs : List a}
    (h : promiseAllList l = .ok vs) : ∀ v ∈ vs, Except.ok v ∈ l := by
  induction l generalizing vs with
  | nil =>
    simp only [promiseAllList] at h
    cases h
    intro v hv; cases hv
  | cons x xs ih =>
    cases x with
    | error err => simp [promiseAllList] at h
    | ok w =>
      cases hrec : promiseAllList xs with
      | error err => simp [promiseAllList, hrec] at h
      | ok ws =>
        simp only [promiseAllList, hrec] at h
        cases h
        intro v hv
        rcases List.mem_cons.mp hv with rfl | hv2
        · exact List.mem_cons_self _ _
        · exact List.mem_cons_of_mem _ (ih hrec v hv2)

/-- Fixture: the `_links` object of a sample listing entry. -/
def sampleLinks : RepoLinks := { self := "s", git := "g", html := "h" }

/-- Fixture: a `"file"`-typed top-level listing entry. -/
def sampleFileEntry (nm u : String) : RepoFile :=
  { name := nm, path := nm, sha := "sha", size := 1, url := "u",
    html_url := "hu", git_url := "gu", download_url := u, type := "file",
    links := sampleLinks }

/-- Fixture: a `"dir"`-typed top-level listing entry. -/
def sampleDirEntry : RepoFile :=
  { name := "src", path := "src", sha := "sha2", size := 0, url := "u2",
    html_url := "hu2", git_url := "gu2", download_url := "ud", type := "dir",
    links := sampleLinks }

/-- C1: on a listing with N top-level entries of which M have type
`"file"`, `listRepoFiles` returns exactly the M `"file"`-typed entries'
records, in listing order, and nothing else: the result is the
order-preserving image of the `"file"`-filtered listing, so it has
exactly M elements and no non-`"file"` entry contributes to it. -/
theorem c1_listRepoFiles_exactly_the_files (entries : List RepoFile)
    (fileResp : String → Except HttpError Json) (body : String → Json)
    (h : ∀ u, fileResp u = .ok (body u)) :
    listRepoFiles (.ok entries) fileResp =
      .ok ((entries.filter (fun e => e.type = "file")).map
        (fun e => { name := e.name, content := normalizeContent (body e.download_url) })) ∧
    ∀ res, listRepoFiles (.ok entries) fileResp = .ok res →
      res.length = (entries.filter (fun e => e.type = "file")).length := by
  have h1 : listRepoFiles (.ok entries) fileResp =
      .ok ((entries.filter (fun e => e.type = "file")).map
        (fun e => { name := e.name, content := normalizeContent (body e.download_url) })) := by
    have hp := promiseAllList_map_fetch entries fileResp body h
    have hf := filterMap_id_map_ite (fun e => e.type = "file")
      (fun e => ({ name := e.name, content := normalizeContent (body e.download_url) } : RepositoryFile))
      entries
    simp [listRepoFiles, hp, hf]
  refine ⟨h1, fun res hres => ?_⟩
  rw [h1] at hres
  cases hres
  simp

/-- Witness for C1: a three-entry listing (file, dir, file) yields exactly
the two file records, in order. -/
theorem c1_witness :
    listRepoFiles (.ok [sampleFileEntry "a.txt" "ua", sampleDirEntry, sampleFileEntry "b.txt" "ub"])
        (fun u => .ok (.str ("C" ++ u))) =
      .ok [{ name := "a.txt", content := "Cua" }, { name := "b.txt", content := "Cub" }] :=
  (c1_listRepoFiles_exactly_the_files
      [sampleFileEntry "a.txt" "ua", sampleDirEntry, sampleFileEntry "b.txt" "ub"]
      (fun u => .ok (.str ("C" ++ u))) (fun u => .str ("C" ++ u))
      (fun _ => rfl)).1.trans rfl

/-- C6: every `RepositoryFile` produced by `listRepoFiles` has a `content`
field obtained by `normalizeContent` from the fetched body of a
`"file"`-typed listing entry — so whatever shape the body had (raw string,
base64 text, or structured JSON), the stored value is a plain string. -/
theorem c6_content_always_plain_string
    (listingResp : Except HttpError (List RepoFile))
    (fileResp : String → Except HttpError Json) (res : List RepositoryFile)
    (hres : listRepoFiles listingResp fileResp = .ok res) :
    ∀ rf ∈ res, ∃ e body,
      (∃ entries, listingResp = .ok entries ∧ e ∈ entries) ∧
      e.type = "file" ∧ fileResp e.download_url = .ok body ∧
      rf = { name := e.name, content := normalizeContent body } := by
  intro rf hrf
  cases listingResp with
  | error err => simp [listRepoFiles] at hres
  | ok entries =>
    cases hall : promiseAllList (entries.map (fetchEntryContent fileResp)) with
    | error err => simp [listRepoFiles, hall] at hres
    | ok contents =>
      simp only [listRepoFiles, hall] at hres
      cases hres
      have hsome : some rf ∈ contents := by
        rcases List.mem_filterMap.mp hrf with ⟨o, ho, hid⟩
        cases hid
        exact ho
      have hok := mem_of_promiseAllList_ok hall (some rf) hsome
      rcases List.mem_map.mp hok with ⟨e, he, hfe⟩
      by_cases hty : e.type = "file"
      · unfold fetchEntryContent at hfe
        rw [if_pos hty] at hfe
        cases hbody : fileResp e.download_url with
        | error err => rw [hbody] at hfe; cases hfe
        | ok body =>
          rw [hbody] at hfe
          cases hfe
          exact ⟨e, body, ⟨entries, rfl, he⟩, hty, hbody, rfl⟩
      · unfold fetchEntryContent at hfe
        rw [if_neg hty] at hfe
        cases hfe

/-- Witness for C6: in the C1 sample run, the first produced record comes
from a `"file"`-typed entry through `normalizeContent`. -/
theorem c6_witness :
    ∃ e body,
      (∃ entries,
        (.ok [sampleFileEntry "a.txt" "ua", sampleDirEntry, sampleFileEntry "b.txt" "ub"] :
          Except HttpError (List RepoFile)) = .ok entries ∧ e ∈ entries) ∧
      e.type = "file" ∧
      (fun u => (.ok (.str ("C" ++ u)) : Except HttpError Json)) e.download_url = .ok body ∧
      ({ name := "a.txt", content := "Cua" } : RepositoryFile) =
        { name := e.name, content := normalizeContent body } :=
  c6_content_always_plain_string
    (.ok [sampleFileEntry "a.txt" "ua", sampleDirEntry, sampleFileEntry "b.txt" "ub"])
    (fun u => .ok (.str ("C" ++ u)))
    [{ name := "a.txt", content := "Cua" }, { name := "b.txt", content := "Cub" }]
    rfl { name := "a.txt", content := "Cua" } (by decide)

theorem jsTrim_empty : jsTrim "" = "" := rfl

/-- The spec's `GenerationError` condition, transcribed from the claim's
words for comparison with the code: the provider call errored, the response
has zero choices, or the first choice's text is empty after trimming. -/
def specGenerationError (completionResp : Except HttpError CompletionResponse) : Bool :=
  match completionResp with
  | .error _ => true
  | .ok r => r.choices.isEmpty || jsTrim (firstChoiceText r) == ""

theorem fileWrite_not_mem_listingEvents (lr : Except HttpError (List RepoFile)) (p : String) :
    Event.fileWrite p ∉ listingEvents lr := by
  cases lr with
  | error err => simp [listingEvents]
  | ok files =>
    simp only [listingEvents, List.mem_map]
    rintro ⟨f, -, hf⟩
    cases hf

/-- Fixture: a metadata response body. -/
def sampleMeta : RepoMeta :=
  { name := "demo", description := .str "a demo", html_url := "https://x/demo" }

/-- Fixture: the repository details `fetchRepoDetails` assembles from
`sampleMeta` and the README text `"readme"`. -/
def sampleDetails : RepoDetails :=
  { name := "demo", description := .str "a demo", url := "https://x/demo",
    readme := .str "readme" }

/-- Fixture: the empty filesystem. -/
def emptyFs : FileSystem := fun _ => none

/-- Fixture: an environment whose completion response has zero choices and
whose other requests all succeed. -/
def sampleEnvNoChoices : Env :=
  { repoResp := .ok sampleMeta
    readmeResp := .ok "readme"
    listingResp := .ok []
    fileResp := fun _ => .ok .null
    completionResp := .ok { choices := [] }
    writeResult := .ok () }

/-- C2: `generateDockerfile` fails exactly when the provider call errored,
the response has zero choices, or the first choice's text is empty after
trimming; and whenever that condition holds of a run's completion response,
the run performs no file write and leaves the filesystem untouched. -/
theorem c2_generation_error_exactly_and_no_write
    (resp : Except HttpError CompletionResponse) (md : RepoDetails)
    (files : List RepositoryFile) :
    ((generateDockerfile resp md files).isOk = false ↔ specGenerationError resp = true) ∧
    (∀ (env : Env) (fs : FileSystem), specGenerationError env.completionResp = true →
      (mainRun env fs).fs = fs ∧ Event.fileWrite "./Dockerfile" ∉ (mainRun env fs).events) := by
  have key : ∀ (r : Except HttpError CompletionResponse) (md' : RepoDetails)
      (files' : List RepositoryFile),
      (generateDockerfile r md' files').isOk = false ↔ specGenerationError r = true := by
    intro r md' files'
    cases r with
    | error err => simp [generateDockerfile, specGenerationError, Except.isOk, Except.toBool]
    | ok response =>
      cases hc : response.choices with
      | nil => simp [generateDockerfile, specGenerationError, hc, Except.isOk, Except.toBool]
      | cons c rest =>
        cases hm : c.message with
        | none =>
          simp [generateDockerfile, specGenerationError, firstChoiceText, hc, hm, Except.isOk, Except.toBool, jsTrim_empty]
        | some m =>
          by_cases hd : jsTrim (m.content.getD "") = ""
          · simp [generateDockerfile, specGenerationError, firstChoiceText, hc, hm, hd, Except.isOk, Except.toBool]
          · simp [generateDockerfile, specGenerationError, firstChoiceText, hc, hm, hd, Except.isOk, Except.toBool]
  refine ⟨key resp md files, fun env fs hcond => ?_⟩
  cases hfd : fetchRepoDetails env.repoResp env.readmeResp with
  | error err =>
    simp [mainRun, hfd]
  | ok repoDetails =>
    cases hlf : listRepoFiles env.listingResp env.fileResp with
    | error err =>
      refine ⟨by simp [mainRun, hfd, hlf], ?_⟩
      simp only [mainRun, hfd, hlf]
      intro hmem
      rcases List.mem_append.mp hmem with h1 | h2
      · simp at h1
      · exact fileWrite_not_mem_listingEvents env.listingResp _ h2
    | ok files' =>
      cases hg : generateDockerfile env.completionResp repoDetails files' with
      | error err =>
        refine ⟨by simp [mainRun, hfd, hlf, hg], ?_⟩
        simp only [mainRun, hfd, hlf, hg]
        intro hmem
        rcases List.mem_append.mp hmem with h1 | h1
        · rcases List.mem_append.mp h1 with h2 | h2
          · simp at h2
          · exact fileWrite_not_mem_listingEvents env.listingResp _ h2
        · simp at h1
      | ok dockerfile =>
        exfalso
        have := (key env.completionResp repoDetails files').mpr hcond
        rw [hg] at this
        simp [Except.isOk, Except.toBool] at this

/-- Witness for C2: a zero-choice completion response satisfies the error
condition, and the corresponding run writes nothing. -/
theorem c2_witness :
    specGenerationError (.ok { choices := [] }) = true ∧
    (mainRun sampleEnvNoChoices emptyFs).fs = emptyFs ∧
    Event.fileWrite "./Dockerfile" ∉ (mainRun sampleEnvNoChoices emptyFs).events :=
  ⟨rfl,
    (c2_generation_error_exactly_and_no_write (.ok { choices := [] }) sampleDetails []).2
      sampleEnvNoChoices emptyFs rfl⟩

/-- C3: the metadata and README reads are joined by `Promise.all` — both
results are consumed, and if either request fails the combined fetch fails
with the one `FetchError`; the run then stops after those two requests, so
no directory listing and no file-content request is ever issued, and the
filesystem is untouched.  (The two requests being issued concurrently is a
scheduling fact outside the value-level model; `promiseAll2` captures the
join's value semantics.) -/
theorem c3_fetch_details_fail_fast (env : Env) (fs : FileSystem)
    (h : env.repoResp.isOk = false ∨ env.readmeResp.isOk = false) :
    fetchRepoDetails env.repoResp env.readmeResp =
      .error (.fetchError "Failed to fetch repository details") ∧
    (mainRun env fs).events = [.metadataReq, .readmeReq] ∧
    (mainRun env fs).fs = fs ∧ (mainRun env fs).failed = true ∧
    ∀ u, Event.fileReq u ∉ (mainRun env fs).events := by
  have hfd : fetchRepoDetails env.repoResp env.readmeResp =
      .error (.fetchError "Failed to fetch repository details") := by
    cases hr : env.repoResp with
    | error err => simp [fetchRepoDetails, promiseAll2]
    | ok meta =>
      cases hm : env.readmeResp with
      | error err => simp [fetchRepoDetails, promiseAll2]
      | ok readme =>
        exfalso
        rcases h with h1 | h1
        · rw [hr] at h1; simp [Except.isOk, Except.toBool] at h1
        · rw [hm] at h1; simp [Except.isOk, Except.toBool] at h1
  refine ⟨hfd, by simp [mainRun, hfd], by simp [mainRun, hfd], by simp [mainRun, hfd], ?_⟩
  intro u
  simp [mainRun, hfd]

/-- Fixture: an environment whose metadata request failed with HTTP 404. -/
def sampleEnv404 : Env :=
  { repoResp := .error (.status 404)
    readmeResp := .ok "readme"
    listingResp := .ok [sampleFileEntry "a.txt" "ua"]
    fileResp := fun _ => .ok .null
    completionResp := .ok { choices := [] }
    writeResult := .ok () }

/-- Witness for C3: a 404 on the metadata request makes the whole fetch
fail after exactly the two initial requests. -/
theorem c3_witness :
    fetchRepoDetails sampleEnv404.repoResp sampleEnv404.readmeResp =
      .error (.fetchError "Failed to fetch repository details") ∧
    (mainRun sampleEnv404 emptyFs).events = [.metadataReq, .readmeReq] ∧
    (mainRun sampleEnv404 emptyFs).fs = emptyFs ∧
    (mainRun sampleEnv404 emptyFs).failed = true ∧
    ∀ u, Event.fileReq u ∉ (mainRun sampleEnv404 emptyFs).events :=
  c3_fetch_details_fail_fast sampleEnv404 emptyFs (Or.inl rfl)

theorem occursIn_refl (s : String) : occursIn s s :=
  ⟨"", "", by simp⟩

theorem occursIn_append_right {n s : String} (a : String) (h : occursIn n s) :
    occursIn n (a ++ s) := by
  obtain ⟨p, q, rfl⟩ := h
  exact ⟨a ++ p, q, by simp [String.append_assoc]⟩

theorem occursIn_append_left {n s : String} (b : String) (h : occursIn n s) :
    occursIn n (s ++ b) := by
  obtain ⟨p, q, rfl⟩ := h
  exact ⟨p, q ++ b, by simp [String.append_assoc]⟩

/-- C4: the prompt contains the repository name, the rendered description,
and the full README text verbatim, contains the newline-joined file section,
and for every fetched file contains its name followed by `": "` and the
first at most 200 characters of its content (a prefix of the content of
length at most 200), one file per `"\n"`-separated line. -/
theorem c4_prompt_contains_inputs (md : RepoDetails) (files : List RepositoryFile) :
    occursIn md.name (buildPrompt md files) ∧
    occursIn (jsDisplay md.description) (buildPrompt md files) ∧
    occursIn (jsDisplay md.readme) (buildPrompt md files) ∧
    occursIn (joinSep "\n" (files.map (fun file => file.name ++ ": " ++ jsSubstring0 file.content 200)))
      (buildPrompt md files) ∧
    ∀ f ∈ files,
      occursIn (f.name ++ ": " ++ jsSubstring0 f.content 200) (buildPrompt md files) ∧
      (jsSubstring0 f.content 200).data <+: f.content.data ∧
      (jsSubstring0 f.content 200).data.length ≤ 200 := by
  unfold buildPrompt
  refine ⟨?_, ?_, ?_, ?_, ?_⟩
  · apply occursIn_append_left
    apply occursIn_append_left
    apply occursIn_append_left
    apply occursIn_append_left
    apply occursIn_append_left
    apply occursIn_append_left
    apply occursIn_append_left
    apply occursIn_append_right
    exact occursIn_refl _
  · apply occursIn_append_left
    apply occursIn_append_left
    apply occursIn_append_left
    apply occursIn_append_left
    apply occursIn_append_left
    apply occursIn_append_right
    exact occursIn_refl _
  · apply occursIn_append_left
    apply occursIn_append_left
    apply occursIn_append_left
    apply occursIn_append_right
    exact occursIn_refl _
  · apply occursIn_append_left
    apply occursIn_append_right
    exact occursIn_refl _
  · intro f hf
    refine ⟨?_, ?_, ?_⟩
    · apply occursIn_append_left
      apply occursIn_append_right
      exact occursIn_joinSep "\n" (List.mem_map_of_mem _ hf)
    · simpa [jsSubstring0] using List.take_prefix 200 f.content.data
    · simp [jsSubstring0]

/-- Witness for C4: a concrete prompt contains the repository name and the
truncated line of a concrete file. -/
theorem c4_witness :
    occursIn "demo" (buildPrompt sampleDetails [{ name := "a.txt", content := "hello" }]) ∧
    occursIn ("a.txt" ++ ": " ++ jsSubstring0 "hello" 200)
      (buildPrompt sampleDetails [{ name := "a.txt", content := "hello" }]) :=
  ⟨(c4_prompt_contains_inputs sampleDetails [{ name := "a.txt", content := "hello" }]).1,
   ((c4_prompt_contains_inputs sampleDetails [{ name := "a.txt", content := "hello" }]).2.2.2.2
      { name := "a.txt", content := "hello" } (by decide)).1⟩

/-- C5: a successful write stores exactly the artifact text at the
destination (no wrapping, no re-trimming), touches no other path, and a
second write of a new artifact over an old one yields exactly the state of
writing the new artifact alone — the previous content leaves no trace. -/
theorem c5_write_exact_overwrite (artifact prev filePath : String) (fs : FileSystem) :
    writeDockerfile (.ok ()) artifact filePath fs = .ok (writeFs filePath artifact fs) ∧
    writeFs filePath artifact fs filePath = some artifact ∧
    (∀ p, p ≠ filePath → writeFs filePath artifact fs p = fs p) ∧
    writeFs filePath artifact (writeFs filePath prev fs) = writeFs filePath artifact fs := by
  refine ⟨rfl, by simp [writeFs], fun p hp => by simp [writeFs, hp], ?_⟩
  funext p
  by_cases hp : p = filePath
  · simp [writeFs, hp]
  · simp [writeFs, hp]

/-- Witness for C5: writing `"FROM node:18\n"` yields exactly that content;
overwriting `"OLD"` with it leaves no trace of `"OLD"`; other paths are
untouched. -/
theorem c5_witness :
    writeFs "./Dockerfile" "FROM node:18\n" emptyFs "./Dockerfile" = some "FROM node:18\n" ∧
    writeFs "./Dockerfile" "FROM node:18\n" (writeFs "./Dockerfile" "OLD" emptyFs) =
      writeFs "./Dockerfile" "FROM node:18\n" emptyFs ∧
    writeFs "./Dockerfile" "FROM node:18\n" emptyFs "other" = emptyFs "other" :=
  ⟨(c5_write_exact_overwrite "FROM node:18\n" "OLD" "./Dockerfile" emptyFs).2.1,
   (c5_write_exact_overwrite "FROM node:18\n" "OLD" "./Dockerfile" emptyFs).2.2.2,
   (c5_write_exact_overwrite "FROM node:18\n" "OLD" "./Dockerfile" emptyFs).2.2.1 "other" (by decide)⟩

/-- C8: if either required credential is absent from the environment, the
module-level checks throw a `ConfigError` and the process run ends before
any request or write: no event is issued and the filesystem is untouched. -/
theorem c8_missing_credential_fatal (cfg : RawConfig) (env : Env) (fs : FileSystem)
    (h : cfg.openaiApiKey = none ∨ cfg.githubToken = none) :
    (∃ msg, startupCheck cfg = .error (.configError msg)) ∧
    (programRun cfg env fs).events = [] ∧
    (programRun cfg env fs).fs = fs ∧
    (programRun cfg env fs).failed = true := by
  have herr : ∃ msg, startupCheck cfg = .error (.configError msg) := by
    rcases h with h1 | h1
    · exact ⟨"Missing OpenAI API key in environment variables",
        by simp [startupCheck, envTruthy, h1]⟩
    · by_cases h2 : envTruthy cfg.openaiApiKey = true
      · have h3 : envTruthy cfg.githubToken = false := by rw [h1]; rfl
        exact ⟨"Missing GitHub token in environment variables",
          by simp [startupCheck, h2, h3]⟩
      · exact ⟨"Missing OpenAI API key in environment variables",
          by simp [startupCheck, h2]⟩
  obtain ⟨msg, hmsg⟩ := herr
  exact ⟨⟨msg, hmsg⟩, by simp [programRun, hmsg], by simp [programRun, hmsg],
    by simp [programRun, hmsg]⟩

/-- Witness for C8: with the completion-provider key unset, the run issues
nothing and fails at startup. -/
theorem c8_witness :
    (∃ msg, startupCheck { openaiApiKey := none, githubToken := some "t" } =
      .error (.configError msg)) ∧
    (programRun { openaiApiKey := none, githubToken := some "t" } sampleEnvNoChoices emptyFs).events
      = [] ∧
    (programRun { openaiApiKey := none, githubToken := some "t" } sampleEnvNoChoices emptyFs).fs
      = emptyFs ∧
    (programRun { openaiApiKey := none, githubToken := some "t" } sampleEnvNoChoices emptyFs).failed
      = true :=
  c8_missing_credential_fatal { openaiApiKey := none, githubToken := some "t" }
    sampleEnvNoChoices emptyFs (Or.inl rfl)

/-- C9: the prompt builder is a pure function of its two inputs — the
template literal of `generateDockerfile` reads only `repoDetails` and
`files`, so any two invocations on equal inputs yield the identical
string. -/
theorem c9_buildPrompt_deterministic (md₁ md₂ : RepoDetails)
    (files₁ files₂ : List RepositoryFile) (h₁ : md₁ = md₂) (h₂ : files₁ = files₂) :
    buildPrompt md₁ files₁ = buildPrompt md₂ files₂ := by
  subst h₁
  subst h₂
  rfl

/-- Witness for C9: two runs on the same concrete inputs agree. -/
theorem c9_witness :
    buildPrompt sampleDetails [{ name := "a.txt", content := "hello" }] =
      buildPrompt sampleDetails [{ name := "a.txt", content := "hello" }] :=
  c9_buildPrompt_deterministic sampleDetails sampleDetails
    [{ name := "a.txt", content := "hello" }] [{ name := "a.txt", content := "hello" }]
    rfl rfl

/-- C10: an absent optional value is interpolated as its literal JavaScript
rendering, not replaced by an empty string: a `null` description puts the
text `null` in the description slot, and (in the js variant, whose
`fetchRepoDetails` returns the raw metadata object with no `readme`
property) an `undefined` readme puts the text `undefined` in the README
slot. -/
theorem c10_absent_values_render_literally (md : RepoDetails) (files : List RepositoryFile) :
    (md.description = .nullv →
      buildPrompt md files = buildPrompt { md with description := .str "null" } files ∧
      occursIn "null" (buildPrompt md files)) ∧
    (md.readme = .undef →
      buildPrompt md files = buildPrompt { md with readme := .str "undefined" } files ∧
      occursIn "undefined" (buildPrompt md files)) ∧
    jsDisplay .nullv = "null" ∧ jsDisplay .nullv ≠ "" ∧
    jsDisplay .undef = "undefined" ∧ jsDisplay .undef ≠ "" := by
  refine ⟨?_, ?_, rfl, by decide, rfl, by decide⟩
  · intro hdesc
    constructor
    · simp [buildPrompt, hdesc, jsDisplay]
    · unfold buildPrompt
      rw [hdesc]
      simp only [jsDisplay]
      apply occursIn_append_left
      apply occursIn_append_left
      apply occursIn_append_left
      apply occursIn_append_left
      apply occursIn_append_left
      apply occursIn_append_right
      exact occursIn_refl _
  · intro hreadme
    constructor
    · simp [buildPrompt, hreadme, jsDisplay]
    · unfold buildPrompt
      rw [hreadme]
      simp only [jsDisplay]
      apply occursIn_append_left
      apply occursIn_append_left
      apply occursIn_append_left
      apply occursIn_append_right
      exact occursIn_refl _

/-- Fixture: repository details with a `null` description and an absent
readme. -/
def sampleDetailsAbsent : RepoDetails :=
  { name := "demo", description := .nullv, url := "https://x/demo", readme := .undef }

/-- Witness for C10: with a `null` description and an absent readme the
prompt shows `null` and `undefined` literally. -/
theorem c10_witness :
    buildPrompt sampleDetailsAbsent [] =
      buildPrompt { sampleDetailsAbsent with description := .str "null" } [] ∧
    occursIn "null" (buildPrompt sampleDetailsAbsent []) ∧
    occursIn "undefined" (buildPrompt sampleDetailsAbsent []) :=
  ⟨((c10_absent_values_render_literally sampleDetailsAbsent []).1 rfl).1,
   ((c10_absent_values_render_literally sampleDetailsAbsent []).1 rfl).2,
   ((c10_absent_values_render_literally sampleDetailsAbsent []).2.1 rfl).2⟩

theorem base64_hi : base64EncodeAscii "hi" = "aGk=" := by decide

/-- C7 counterexample: the program does not base64-decode fetched content.
`"aGk="` is the standard base64 encoding of `"hi"`, yet when a file body
holds that encoding, `listRepoFiles` stores `"aGk="` itself — the
round-trip `decode (encode s) = s` fails at `s = "hi"`. -/
theorem c7_counterexample :
    base64EncodeAscii "hi" = "aGk=" ∧
    listRepoFiles (.ok [sampleFileEntry "a.txt" "ua"])
        (fun _ => .ok (.str (base64EncodeAscii "hi"))) =
      .ok [{ name := "a.txt", content := "aGk=" }] ∧
    ("aGk=" : String) ≠ "hi" := by
  refine ⟨base64_hi, ?_, by decide⟩
  rw [base64_hi]
  simp [listRepoFiles, promiseAllList, fetchEntryContent, normalizeContent, sampleFileEntry]

/-- C7 amended: the program performs no base64 decoding at all — a string
body fetched from a content reference is stored verbatim in
`RepositoryFile.content`, so a base64-encoded body yields the encoded text
itself, not the decoded original. -/
theorem c7_amended_content_stored_verbatim (s : String) (e : RepoFile)
    (he : e.type = "file") :
    listRepoFiles (.ok [e]) (fun _ => .ok (.str (base64EncodeAscii s))) =
      .ok [{ name := e.name, content := base64EncodeAscii s }] := by
  simp [listRepoFiles, promiseAllList, fetchEntryContent, he, normalizeContent]

/-- Witness for C7's amended claim at `s = "hi"`. -/
theorem c7_witness :
    listRepoFiles (.ok [sampleFileEntry "a.txt" "ua"])
        (fun _ => .ok (.str "aGk=")) =
      .ok [{ name := "a.txt", content := "aGk=" }] := by
  have h := c7_amended_content_stored_verbatim "hi" (sampleFileEntry "a.txt" "ua") rfl
  rw [base64_hi] at h
  simpa [sampleFileEntry] using h

end HackathonDockerfile
